import Mathlib

set_option maxRecDepth 8000

/-!
Verification development for the `maya_tools` package: a shallow embedding of
the library's functions over explicit models of the host application's scene
state, together with theorems settling the specification's claims.
-/

deriving instance DecidableEq for Except

namespace MayaTools

/-- Python exception classes raised by the library or by the host layer. -/
inductive PyError where
  | valueError
  | runtimeError
  | attributeError
  | nameError
  | keyError
  | indexError
deriving DecidableEq, Repr

/-! Host model: wildcard name matching used by `cmds.objExists`.  A `*` in the
queried pattern matches any (possibly empty) run of characters; any other
character matches itself. -/

/-- True when `p` (a pattern that may contain `*` wildcards) matches `s`. -/
def globMatch : List Char → List Char → Bool
  | [], s => s.isEmpty
  | p :: ps, s =>
    if p = '*' then s.tails.any (fun t => globMatch ps t)
    else
      match s with
      | [] => false
      | c :: t => p == c && globMatch ps t

/-- Model of `cmds.objExists`: some object of the scene matches the pattern. -/
def objExists (scene : List (List Char)) (pat : List Char) : Bool :=
  scene.any (fun o => globMatch pat o)

/-- Worker for Python `str.replace`: structural recursion on explicit fuel so
that concrete instances evaluate inside the kernel.  One unit of fuel is spent
per character of the subject, so `s.length + 1` is always enough. -/
def pyReplaceFuel : Nat → List Char → List Char → List Char → List Char
  | _, s, [], rep => rep ++ (s.map (fun c => c :: rep)).flatten
  | 0, s, _ :: _, _ => s
  | _ + 1, [], _ :: _, _ => []
  | f + 1, c :: s, p :: pat, rep =>
    if (p :: pat).isPrefixOf (c :: s) then
      rep ++ pyReplaceFuel f (List.drop pat.length s) (p :: pat) rep
    else
      c :: pyReplaceFuel f s (p :: pat) rep

/-- Python `str.replace`, including the empty-pattern behaviour. -/
def pyReplace (s pat rep : List Char) : List Char :=
  pyReplaceFuel (s.length + 1) s pat rep

/-- Python `"sub" in s` on character lists. -/
def isSub : List Char → List Char → Bool
  | pat, [] => pat.isEmpty
  | pat, c :: t => pat.isPrefixOf (c :: t) || isSub pat t

/-- Python `str.zfill`: left-pad with zeros up to the requested width. -/
def zfill (width : Nat) (s : List Char) : List Char :=
  List.replicate (width - s.length) '0' ++ s

/-- Remove every `*` character (Python `generated.replace("*", "")`). -/
def stripStar (s : List Char) : List Char :=
  s.filter (fun c => c ≠ '*')

/-! Embedding of `name.unique` (src/maya_tools/name.py).  The scene is the
list of existing object names; the while loop is given explicit fuel. -/

/-- The inner `_build` closure of `name.unique`. -/
def uniqueBuild (name : List Char) (count index : Nat) : List Char :=
  if count = 0 then name
  else pyReplace name (List.replicate count '#') (zfill count (Nat.toDigits 10 index))

/-- The `while cmds.objExists(generated)` loop of `name.unique`. -/
def uniqueLoop (scene : List (List Char)) :
    Nat → List Char → Nat → Nat → Option (List Char)
  | 0, _, _, _ => none
  | fuel + 1, name, count, index =>
    let generated := uniqueBuild name count index
    if objExists scene generated then
      if count = 0 && index = 0 then
        uniqueLoop scene fuel (name ++ ['#']) 1 1
      else
        uniqueLoop scene fuel name count (index + 1)
    else
      some generated

/-- Embedding of `name.unique`: validates the `#` block, searches for a free
name, and strips `*` wildcards from the result.  Raises `NameError` when the
`#` characters of the argument do not form one contiguous block. -/
def uniqueModel (fuel : Nat) (scene : List (List Char)) (name : List Char) :
    Except PyError (Option (List Char)) :=
  let count := name.count '#'
  if isSub (List.replicate count '#') name then
    .ok ((uniqueLoop scene fuel name count 0).map stripStar)
  else
    .error .nameError

/-! Embedding of `name.nice` (src/maya_tools/name.py). -/

/-- Tail of the `re.sub(r"(?<!^)([A-Z])", r" \1", name)` model: insert a space
before every ASCII uppercase letter. -/
def subUpperTail : List Char → List Char
  | [] => []
  | c :: s => (if c.isUpper then [' ', c] else [c]) ++ subUpperTail s

/-- Model of `re.sub(r"(?<!^)([A-Z])", r" \1", name)`: the first character is
never preceded by a space; afterwards a space is inserted before every ASCII
uppercase letter. -/
def spaceBeforeUpper : List Char → List Char
  | [] => []
  | c :: s => c :: subUpperTail s

/-- Model of `.replace("_", " ")`. -/
def underscoreToSpace (s : List Char) : List Char :=
  s.map (fun c => if c = '_' then ' ' else c)

/-- Worker for Python `str.title`: the flag records whether the previous
character was a letter. -/
def pyTitleGo : Bool → List Char → List Char
  | _, [] => []
  | prev, c :: s =>
    (if c.isAlpha then (if prev then c.toLower else c.toUpper) else c)
      :: pyTitleGo c.isAlpha s

/-- Python `str.title` on ASCII text. -/
def pyTitle (s : List Char) : List Char :=
  pyTitleGo false s

/-- Embedding of `name.nice`. -/
def nice (s : List Char) : List Char :=
  pyTitle (underscoreToSpace (spaceBeforeUpper s))

/-- The insertion step exactly as the specification phrases it: a space before
each uppercase letter that is not the first character of the string. -/
def niceSpecInsert (s : List Char) : List Char :=
  (s.enum.map (fun p => if p.1 ≠ 0 ∧ p.2.isUpper then [' ', p.2] else [p.2])).flatten

/-- The full `nice` pipeline as the specification phrases it. -/
def niceSpec (s : List Char) : List Char :=
  pyTitle (underscoreToSpace (niceSpecInsert s))

/-! Supporting lemmas about the glob matcher and the unique-name loop. -/

theorem isSub_nil (s : List Char) : isSub [] s = true := by
  cases s <;> simp [isSub, List.isPrefixOf]

theorem globMatch_stripStar (p : List Char) : globMatch p (stripStar p) = true := by
  induction p with
  | nil => simp [globMatch, stripStar]
  | cons c ps ih =>
    by_cases hc : c = '*'
    · subst hc
      have hstrip : stripStar ('*' :: ps) = stripStar ps := by
        simp [stripStar]
      rw [hstrip]
      simp only [globMatch, if_pos]
      rw [List.any_eq_true]
      exact ⟨stripStar ps, (List.mem_tails _ _).mpr (List.suffix_refl _), ih⟩
    · have hstrip : stripStar (c :: ps) = c :: stripStar ps := by
        simp [stripStar, hc]
      rw [hstrip]
      simp only [globMatch, if_neg hc]
      simp [ih]

theorem globMatch_no_star_eq (p s : List Char) (hp : '*' ∉ p)
    (h : globMatch p s = true) : p = s := by
  induction p generalizing s with
  | nil =>
    simp [globMatch, List.isEmpty_iff] at h
    simp [h]
  | cons c ps ih =>
    have hc : c ≠ '*' := by
      intro hcc
      exact hp (hcc ▸ List.mem_cons_self c ps)
    have hps : '*' ∉ ps := fun hm => hp (List.mem_cons_of_mem _ hm)
    simp only [globMatch, if_neg hc] at h
    cases s with
    | nil => simp at h
    | cons d t =>
      simp only [Bool.and_eq_true, beq_iff_eq] at h
      rw [h.1, ih t hps h.2]

theorem stripStar_no_star (s : List Char) : '*' ∉ stripStar s := by
  intro h
  simp [stripStar] at h

/-- If the loop of `name.unique` terminates with `generated`, then no scene
object matches `generated`. -/
theorem uniqueLoop_not_exists (scene : List (List Char)) :
    ∀ fuel name count index g,
      uniqueLoop scene fuel name count index = some g →
      objExists scene g = false := by
  intro fuel
  induction fuel with
  | zero => intro name count index g h; simp [uniqueLoop] at h
  | succ n ih =>
    intro name count index g h
    rw [uniqueLoop] at h
    by_cases hex : objExists scene (uniqueBuild name count index) = true
    · simp only [hex, if_pos] at h
      by_cases hz : (count = 0 && index = 0) = true
      · rw [if_pos hz] at h
        exact ih _ _ _ _ h
      · rw [if_neg hz] at h
        exact ih _ _ _ _ h
    · simp only [Bool.not_eq_true] at hex
      simp only [hex, Bool.false_eq_true, if_false, Option.some.injEq] at h
      rw [← h]
      exact hex

theorem objExists_stripStar_false (scene : List (List Char)) (g : List Char)
    (h : objExists scene g = false) : objExists scene (stripStar g) = false := by
  by_contra hcon
  rw [Bool.not_eq_false, objExists, List.any_eq_true] at hcon
  obtain ⟨o, ho, hm⟩ := hcon
  have heq := globMatch_no_star_eq _ _ (stripStar_no_star g) hm
  have hg : objExists scene g = true := by
    rw [objExists, List.any_eq_true]
    refine ⟨o, ho, ?_⟩
    rw [← heq]
    exact globMatch_stripStar g
  rw [h] at hg
  exact Bool.false_ne_true hg

/-- Claim C3: for every base string accepted by `name.unique` (one whose `#`
characters form at most one contiguous block), the string returned by
`unique(name)` does not name any object existing in the scene at the time of
the call: `cmds.objExists` on the returned string is false, including when the
base contains no `#` and already exists, when it contains a block of `#`
characters, and when it contains a `*` wildcard that is stripped from the
returned value. -/
theorem unique_returns_nonexistent_name (fuel : Nat) (scene : List (List Char))
    (name r : List Char)
    (h : uniqueModel fuel scene name = .ok (some r)) :
    objExists scene r = false := by
  unfold uniqueModel at h
  by_cases hs : isSub (List.replicate (name.count '#') '#') name = true
  · rw [if_pos hs] at h
    simp only [Except.ok.injEq, Option.map_eq_some'] at h
    obtain ⟨g, hg, hr⟩ := h
    have hne := uniqueLoop_not_exists scene fuel name (name.count '#') 0 g hg
    rw [← hr]
    exact objExists_stripStar_false scene g hne
  · rw [if_neg hs] at h
    exact absurd h (by simp)

theorem unique_returns_nonexistent_name_witness :
    uniqueModel 4 [String.toList "node"] (String.toList "node") =
        .ok (some (String.toList "node1")) ∧
      objExists [String.toList "node"] (String.toList "node1") = false :=
  ⟨by decide, unique_returns_nonexistent_name 4 [String.toList "node"]
    (String.toList "node") (String.toList "node1") (by decide)⟩

/-- Claim C10: `name.unique` raises `NameError` exactly when the `#`
characters of its argument do not form a single contiguous block: for every
string, `unique` raises iff the string contains at least one `#` and the run
of `count` consecutive `#` characters is not a substring of it.  The check is
performed before any host call, so the raise does not depend on (and cannot
change) the scene: the statement holds for every scene. -/
theorem unique_nameError_iff (fuel : Nat) (scene : List (List Char))
    (name : List Char) :
    (uniqueModel fuel scene name = .error .nameError) ↔
      (0 < name.count '#' ∧
        isSub (List.replicate (name.count '#') '#') name = false) := by
  unfold uniqueModel
  by_cases hs : isSub (List.replicate (name.count '#') '#') name = true
  · simp [hs]
  · have hs' : isSub (List.replicate (name.count '#') '#') name = false := by
      simpa using hs
    rw [if_neg hs]
    constructor
    · intro _
      refine ⟨?_, hs'⟩
      by_contra hzero
      have hc0 : name.count '#' = 0 := by omega
      rw [hc0, List.replicate_zero, isSub_nil] at hs'
      simp at hs'
    · intro _
      rfl

theorem unique_nameError_iff_witness :
    uniqueModel 1 [] (String.toList "node##_##_ext") = .error .nameError :=
  (unique_nameError_iff 1 [] (String.toList "node##_##_ext")).mpr (by decide)

theorem subUpperTail_enumFrom (t : List Char) :
    ∀ n, 0 < n →
      ((t.enumFrom n).map
        (fun p => if p.1 ≠ 0 ∧ p.2.isUpper then [' ', p.2] else [p.2])).flatten
      = subUpperTail t := by
  induction t with
  | nil => intro n _; rfl
  | cons c t ih =>
    intro n hn
    have hne : n ≠ 0 := by omega
    simp only [List.enumFrom, List.map_cons, List.flatten_cons, subUpperTail]
    rw [ih (n + 1) (by omega)]
    by_cases hu : c.isUpper
    · simp [hne, hu]
    · simp [hne, hu]

theorem spaceBeforeUpper_eq_spec (s : List Char) :
    spaceBeforeUpper s = niceSpecInsert s := by
  cases s with
  | nil => rfl
  | cons c t =>
    unfold niceSpecInsert
    rw [List.enum]
    simp only [List.enumFrom, List.map_cons, List.flatten_cons]
    rw [subUpperTail_enumFrom t 1 (by omega)]
    simp [spaceBeforeUpper]

/-- Claim C8: for every input string, `name.nice` equals the result of
inserting a space before each uppercase letter that is not the first
character, then replacing every underscore with a space, then title-casing;
and it returns `"Simple Name"` for each of `"simple_name"`, `"simpleName"`,
`"SimpleName"` and `"Simple name"`. -/
theorem nice_matches_spec_and_examples :
    (∀ s : List Char, nice s = niceSpec s) ∧
      nice (String.toList "simple_name") = String.toList "Simple Name" ∧
      nice (String.toList "simpleName") = String.toList "Simple Name" ∧
      nice (String.toList "SimpleName") = String.toList "Simple Name" ∧
      nice (String.toList "Simple name") = String.toList "Simple Name" := by
  refine ⟨?_, by decide, by decide, by decide, by decide⟩
  intro s
  unfold nice niceSpec
  rw [spaceBeforeUpper_eq_spec]

/-! Embedding of `skincluster.py`.  The scene fragment relevant to these
functions is the list of skinclusters attached to the node under
consideration; `findRelatedSkinCluster` yields the first one.  Each influence
of a skincluster is stored with a flag telling whether it carries non-zero
weights, which is what `cmds.skinCluster(..., weightedInfluence=True)`
reports. -/

structure SkinCluster where
  scName : String
  method : Nat
  influences : List (String × Bool)
deriving DecidableEq, Repr

structure SkinScene where
  skins : List SkinCluster
deriving DecidableEq, Repr

/-- Model of `mel.eval("findRelatedSkinCluster ...")`. -/
def findRelatedSkinCluster (s : SkinScene) : Option SkinCluster :=
  s.skins.head?

/-- The `{"linear": 0, "dualQuaternion": 1, "blend": 2}[method]` lookup of
`skincluster.create`. -/
def methodIndex (m : String) : Option Nat :=
  if m = "linear" then some 0
  else if m = "dualQuaternion" then some 1
  else if m = "blend" then some 2
  else none

/-- Python `set(influences) - set(current)` as a duplicate-free list. -/
def skinDelta (influences current : List String) : List String :=
  (influences.filter (fun i => ! current.contains i)).dedup

/-- Model of `cmds.skinCluster(skc, edit=True, addInfluence=delta)`: the new
influences are appended, initially carrying no weights. -/
def addInfluencesEdit (skc : SkinCluster) (delta : List String) : SkinCluster :=
  { skc with influences := skc.influences ++ delta.map (fun n => (n, false)) }

/-- Log line of `skincluster.add_influences` when no skincluster is found. -/
def noSkinLogMsg (node : String) : String :=
  "No skincluster found under the node " ++ node ++ "."

/-- Embedding of `skincluster.create`. -/
def skinCreate (s : SkinScene) (node : String) (influences : List String)
    (method : String) : Except PyError (SkinScene × String) :=
  match methodIndex method with
  | none => .error .valueError
  | some mi =>
    match s.skins.head? with
    | none =>
      let nm := node ++ "_skinCluster"
      Except.ok (⟨s.skins ++
        [SkinCluster.mk nm mi (influences.map (fun n => (n, true)))]⟩, nm)
    | some skc =>
      let current := skc.influences.map Prod.fst
      let delta := skinDelta influences current
      Except.ok ({ skins := addInfluencesEdit skc delta :: s.skins.tail }, skc.scName)

/-- Embedding of `skincluster.add_influences`: on a node without a
skincluster it logs an error and returns; otherwise it adds the missing
influences.  The result also carries the emitted log lines. -/
def addInfluencesModel (s : SkinScene) (node : String)
    (influences : List String) : Except PyError (SkinScene × List String) :=
  match s.skins.head? with
  | none => .ok (s, [noSkinLogMsg node])
  | some skc =>
    let current := skc.influences.map Prod.fst
    let delta := skinDelta influences current
    Except.ok ({ skins := addInfluencesEdit skc delta :: s.skins.tail }, [])

/-- Embedding of `skincluster.find_influences`.  `none` models the host
error raised when the node has no skincluster.  `list(set(..) - set(..))`
yields its elements in unspecified order; the model fixes one order, and the
theorems only speak about the underlying set. -/
def findInfluences (s : SkinScene) (weighted unused : Bool) :
    Option (List String) :=
  match s.skins.head? with
  | none => none
  | some skc =>
    let allInf := skc.influences.map Prod.fst
    if unused && weighted then some allInf
    else
      let weightedInf := (skc.influences.filter Prod.snd).map Prod.fst
      if weighted then some weightedInf
      else some ((allInf.filter (fun i => ! weightedInf.contains i)).dedup)

theorem contains_eq_false_iff (l : List String) (x : String) :
    (l.contains x = false) ↔ x ∉ l := by
  constructor
  · intro h hm
    have ht : l.contains x = true := List.elem_iff.mpr hm
    rw [h] at ht
    exact Bool.false_ne_true ht
  · intro h
    cases hcb : l.contains x with
    | false => rfl
    | true => exact absurd (List.elem_iff.mp hcb) h

theorem skinDelta_toFinset (inf cur : List String) :
    (skinDelta inf cur).toFinset = inf.toFinset \ cur.toFinset := by
  ext x
  simp [skinDelta, List.mem_filter, List.mem_dedup]

/-- Claim C6: for every deformable node that already has a skincluster,
`skincluster.create` does not create a second skincluster: it keeps the
existing influences in place, appends exactly the given influences that are
not already present (the set difference of the given minus the current ones),
and the number of skinclusters on the node is unchanged. -/
theorem skincluster_create_on_existing (s : SkinScene) (node method : String)
    (influences : List String) (skc : SkinCluster) (mi : Nat)
    (hskc : s.skins.head? = some skc) (hm : methodIndex method = some mi) :
    skinCreate s node influences method =
        .ok (⟨SkinCluster.mk skc.scName skc.method (skc.influences ++
            (skinDelta influences (skc.influences.map Prod.fst)).map
            (fun n => (n, false))) :: s.skins.tail⟩, skc.scName) ∧
      (∀ s2 r, skinCreate s node influences method = .ok (s2, r) →
        s2.skins.length = s.skins.length) ∧
      (skinDelta influences (skc.influences.map Prod.fst)).toFinset =
        influences.toFinset \ (skc.influences.map Prod.fst).toFinset := by
  have h1 : skinCreate s node influences method =
      .ok (⟨SkinCluster.mk skc.scName skc.method (skc.influences ++
          (skinDelta influences (skc.influences.map Prod.fst)).map
          (fun n => (n, false))) :: s.skins.tail⟩, skc.scName) := by
    simp [skinCreate, hm, hskc, addInfluencesEdit]
  refine ⟨h1, ?_, skinDelta_toFinset _ _⟩
  intro s2 r h2
  rw [h1] at h2
  cases hsk : s.skins with
  | nil => rw [hsk] at hskc; exact absurd hskc (by simp)
  | cons a t =>
    simp only [Except.ok.injEq, Prod.mk.injEq] at h2
    rw [← h2.1, hsk]
    simp

theorem skincluster_create_on_existing_witness :
    skinCreate ⟨[⟨"cube_skinCluster", 2, [("A", true)]⟩]⟩ "cube" ["A", "B"]
        "blend" =
      .ok (⟨[⟨"cube_skinCluster", 2, [("A", true), ("B", false)]⟩]⟩,
        "cube_skinCluster") := by
  have h := skincluster_create_on_existing ⟨[⟨"cube_skinCluster", 2, [("A", true)]⟩]⟩
    "cube" "blend" ["A", "B"] ⟨"cube_skinCluster", 2, [("A", true)]⟩ 2 rfl rfl
  rw [h.1]
  decide

/-- Claim C7: for every node with a skincluster, the weighted-only and
unused-only results of `find_influences` partition the full influence set:
they are disjoint and their union is the `weighted=True, unused=True`
result. -/
theorem find_influences_partition (s : SkinScene) (skc : SkinCluster)
    (hskc : s.skins.head? = some skc) :
    ∃ w u a, findInfluences s true false = some w ∧
      findInfluences s false true = some u ∧
      findInfluences s true true = some a ∧
      w.toFinset ∩ u.toFinset = ∅ ∧
      w.toFinset ∪ u.toFinset = a.toFinset := by
  refine ⟨(skc.influences.filter Prod.snd).map Prod.fst,
    ((skc.influences.map Prod.fst).filter
      (fun i => ! ((skc.influences.filter Prod.snd).map Prod.fst).contains i)).dedup,
    skc.influences.map Prod.fst, ?_, ?_, ?_, ?_, ?_⟩
  · simp [findInfluences, hskc]
  · simp [findInfluences, hskc]
  · simp [findInfluences, hskc]
  · ext x
    simp only [Finset.mem_inter, List.mem_toFinset, List.mem_dedup,
      List.mem_filter, Finset.not_mem_empty, iff_false]
    rintro ⟨hw, -, hnc⟩
    simp only [Bool.not_eq_true', contains_eq_false_iff] at hnc
    exact hnc hw
  · ext x
    simp only [Finset.mem_union, List.mem_toFinset, List.mem_dedup,
      List.mem_filter, Bool.not_eq_true', contains_eq_false_iff]
    constructor
    · rintro (hw | ⟨ha, -⟩)
      · obtain ⟨p, hp, hpx⟩ := List.mem_map.mp hw
        exact List.mem_map.mpr ⟨p, (List.mem_filter.mp hp).1, hpx⟩
      · exact ha
    · intro ha
      by_cases hw : x ∈ (skc.influences.filter Prod.snd).map Prod.fst
      · exact Or.inl hw
      · exact Or.inr ⟨ha, hw⟩

theorem find_influences_partition_witness :
    ∃ w u a,
      findInfluences ⟨[⟨"skc", 2, [("A", true), ("B", false)]⟩]⟩ true false = some w ∧
      findInfluences ⟨[⟨"skc", 2, [("A", true), ("B", false)]⟩]⟩ false true = some u ∧
      findInfluences ⟨[⟨"skc", 2, [("A", true), ("B", false)]⟩]⟩ true true = some a ∧
      w.toFinset ∩ u.toFinset = ∅ ∧
      w.toFinset ∪ u.toFinset = a.toFinset :=
  find_influences_partition ⟨[⟨"skc", 2, [("A", true), ("B", false)]⟩]⟩
    ⟨"skc", 2, [("A", true), ("B", false)]⟩ rfl

/-! Embedding of `attribute.reset` (src/maya_tools/attribute.py).  The scene
records, per node and attribute: the keyable attributes, the settable flag,
the result of `attributeQuery(..., listDefault=True)[0]` (where `none` models
the host raising `RuntimeError`), whether `cmds.setAttr` raises
`RuntimeError` for that plug (e.g. a locked or connected attribute), and the
current values. -/

structure AttrScene where
  keyable : String → List String
  settable : String → String → Bool
  defaults : String → String → Option Int
  setFails : String → String → Bool
  values : String → String → Int

/-- The `LOG.warning("Failed to reset '%s' plug.", plug)` message. -/
def warnResetMsg (node attr : String) : String :=
  "Failed to reset " ++ node ++ "." ++ attr ++ " plug."

/-- Model of `cmds.setAttr(plug, value)` when the host accepts it. -/
def setAttrValue (s : AttrScene) (node attr : String) (v : Int) : AttrScene :=
  AttrScene.mk s.keyable s.settable s.defaults s.setFails
    (fun n a => if n = node ∧ a = attr then v else s.values n a)

/-- Body of the `try` block of `attribute.reset`: query the default value and
set it; either host call may raise `RuntimeError`. -/
def tryResetOne (s : AttrScene) (node a : String) : Except PyError AttrScene :=
  match s.defaults node a with
  | none => Except.error PyError.runtimeError
  | some d =>
    if s.setFails node a then Except.error PyError.runtimeError
    else Except.ok (setAttrValue s node a d)

/-- The loop of `attribute.reset`: skip non-settable plugs, catch
`RuntimeError` and log a warning, propagate anything else. -/
def resetGo (node : String) :
    AttrScene → List String → Except PyError (AttrScene × List String)
  | s, [] => Except.ok (s, [])
  | s, a :: rest =>
    if s.settable node a = false then resetGo node s rest
    else
      match tryResetOne s node a with
      | Except.ok s2 => resetGo node s2 rest
      | Except.error PyError.runtimeError =>
        (resetGo node s rest).map (fun p => (p.1, warnResetMsg node a :: p.2))
      | Except.error e => Except.error e

/-- Python `given or fallback or []` for list arguments. -/
def pyOrList (given : Option (List String)) (fallback : List String) :
    List String :=
  match given with
  | some l => if l = [] then fallback else l
  | none => fallback

/-- Embedding of `attribute.reset`.  The result carries the emitted log
lines next to the final scene. -/
def resetModel (s : AttrScene) (node : String)
    (attributes : Option (List String)) :
    Except PyError (AttrScene × List String) :=
  resetGo node s (pyOrList attributes (s.keyable node))

/-! Embedding of `attribute.move` (src/maya_tools/attribute.py).  Only the
channel-box ordering of the user-defined attributes is modelled; the
`to_last` helper (delete the attribute, then undo) re-adds an attribute at
the end of that ordering.  The `with unlock(node)` wrapper restores lock
states and does not affect the ordering, so locks are not part of this
fragment of the scene. -/

structure MoveScene where
  userAttrs : String → List String

/-- The `LOG.error("The attribute is not an user attribute.")` message. -/
def errNotUserMsg : String := "The attribute is not an user attribute."

/-- Net effect of `to_last` (deleteAttr followed by undo). -/
def toLast (l : List String) (a : String) : List String :=
  l.erase a ++ [a]

def setUserAttrs (s : MoveScene) (node : String) (l : List String) : MoveScene :=
  MoveScene.mk (fun n => if n = node then l else s.userAttrs n)

/-- Python `plug.split(".", 1)` unpacked into two names; `none` models the
`ValueError` raised by unpacking when the plug contains no dot. -/
def splitPlugGo : List Char → List Char → Option (List Char × List Char)
  | _, [] => none
  | acc, c :: t =>
    if c = '.' then some (acc.reverse, t) else splitPlugGo (c :: acc) t

def splitPlug (plug : String) : Option (String × String) :=
  (splitPlugGo [] plug.toList).map (fun p => (String.mk p.1, String.mk p.2))

/-- Embedding of `attribute.move`. -/
def moveModel (s : MoveScene) (plug whereArg : String) :
    Except PyError (MoveScene × List String) :=
  match splitPlug plug with
  | none => Except.error PyError.valueError
  | some (node, attrName) =>
    let attrList := s.userAttrs node
    if attrList.contains attrName = false then
      Except.ok (s, [errNotUserMsg])
    else
      let index := attrList.indexOf attrName
      if whereArg = "top" then
        if attrList.head? = some attrName then Except.ok (s, [])
        else
          Except.ok (setUserAttrs s node (attrList.foldl
            (fun acc x => if x = attrName then acc else toLast acc x)
            attrList), [])
      else if whereArg = "up" then
        if attrList.head? = some attrName then Except.ok (s, [])
        else
          Except.ok (setUserAttrs s node ((attrList.drop (index + 1)).foldl
            toLast (toLast attrList (attrList.getD (index - 1) ""))), [])
      else if whereArg = "down" then
        if attrList.getLast? = some attrName then Except.ok (s, [])
        else
          Except.ok (setUserAttrs s node ((attrList.drop (index + 2)).foldl
            toLast (toLast attrList attrName)), [])
      else if whereArg = "bottom" then
        if attrList.getLast? = some attrName then Except.ok (s, [])
        else Except.ok (setUserAttrs s node (toLast attrList attrName), [])
      else Except.error PyError.valueError

/-! Embedding of `attribute.add_separator` (src/maya_tools/attribute.py).
The scene records which plugs exist.  Python `str.format` is modelled for
the `index` replacement field (the only field the function documents),
optionally with a `:0N` zero-padding specification as in the default
`separator{index:02}` name. -/

structure SepScene where
  hasPlug : String → Bool

def indexTok : List Char := ['{', 'i', 'n', 'd', 'e', 'x']

def indexWord : List Char := ['i', 'n', 'd', 'e', 'x']

/-- The `"{index" not in name` validation of `add_separator`. -/
def hasIndexSub (name : List Char) : Bool :=
  isSub indexTok name

def digitsToNat (ds : List Char) : Nat :=
  ds.foldl (fun n c => n * 10 + (c.toNat - 48)) 0

/-- Width of a `:0N` format specification, `0` when absent. -/
def parsePad : List Char → Nat
  | ':' :: '0' :: ds => digitsToNat ds
  | _ => 0

/-- Substitution of one `{index...}` replacement field. -/
def formatIndexSegment (seg : List Char) (idx : Nat) : List Char :=
  if indexWord.isPrefixOf seg then
    zfill (parsePad (seg.drop 5)) (Nat.toDigits 10 idx)
  else
    '{' :: (seg ++ ['}'])

/-- Fueled scan replacing every `{...}` replacement field of the name. -/
def substIndexFuel : Nat → List Char → Nat → List Char
  | 0, s, _ => s
  | f + 1, s, idx =>
    match s with
    | [] => []
    | c :: t =>
      if c = '{' then
        let seg := t.takeWhile (fun d => d ≠ '}')
        let rest := (t.dropWhile (fun d => d ≠ '}')).drop 1
        formatIndexSegment seg idx ++ substIndexFuel f rest idx
      else
        c :: substIndexFuel f t idx

def substIndex (s : List Char) (idx : Nat) : List Char :=
  substIndexFuel (s.length + 1) s idx

/-- The plug name `"{}.{}".format(node, ...)` built by `add_separator`. -/
def sepPlug (node : String) (name : List Char) (idx : Nat) : String :=
  String.mk (node.toList ++ '.' :: substIndex name idx)

/-- The `while cmds.objExists(plug)` search of `add_separator`. -/
def sepLoop (s : SepScene) (node : String) (name : List Char) :
    Nat → Nat → Option String
  | 0, _ => none
  | f + 1, idx =>
    let plug := sepPlug node name idx
    if s.hasPlug plug then sepLoop s node name f (idx + 1) else some plug

/-- Model of `cmds.addAttr` plus `cmds.setAttr(plug, channelBox=True)`. -/
def sepCreate (s : SepScene) (plug : String) : SepScene :=
  SepScene.mk (fun p => if p = plug then true else s.hasPlug p)

/-- Embedding of `attribute.add_separator`; the labels `right`/`left` only
feed the niceName/enumName of the created attribute, which is outside the
modelled state.  Raises `ValueError` when the name has no `index` field. -/
def addSeparatorModel (fuel : Nat) (s : SepScene) (node : String)
    (name : List Char) : Except PyError (Option (SepScene × String)) :=
  if hasIndexSub name = false then Except.error PyError.valueError
  else
    match sepLoop s node name fuel 0 with
    | none => Except.ok none
    | some plug => Except.ok (some (sepCreate s plug, plug))

/-! Embedding of `attribute.copy` (src/maya_tools/attribute.py).  The scene
records the user-defined attributes of each node, the parent of each
attribute, the chain of long names produced by `getAddAttrCmds` for an
attribute (the attribute followed by its nested children), attribute
existence per node, and current values. -/

structure CopyScene where
  userDefined : String → List String
  parentOf : String → String → Option String
  addChain : String → String → List String
  hasAttr : String → String → Bool
  values : String → String → Int

/-- Model of replaying the `addAttr` mel commands on the destination. -/
def addAttrsTo (s : CopyScene) (dst : String) (names : List String) :
    CopyScene :=
  CopyScene.mk s.userDefined s.parentOf s.addChain
    (fun n a => if n = dst ∧ names.contains a then true else s.hasAttr n a)
    s.values

/-- Model of replaying the `getSetAttrCmds` value commands on the
destination. -/
def copyValuesTo (s : CopyScene) (src dst : String) (names : List String) :
    CopyScene :=
  CopyScene.mk s.userDefined s.parentOf s.addChain s.hasAttr
    (fun n a => if n = dst ∧ names.contains a then s.values src a else s.values n a)

/-- The loop of `attribute.copy`. -/
def copyGo (src dst : String) (values fatal : Bool) :
    CopyScene → List String → Except PyError (CopyScene × List String)
  | s, [] => Except.ok (s, [])
  | s, attr :: rest =>
    if (s.parentOf src attr).isSome then copyGo src dst values fatal s rest
    else
      let ex := s.hasAttr dst attr
      if ex ∧ fatal then Except.error PyError.attributeError
      else
        let chain := s.addChain src attr
        let s1 := if ex then s else addAttrsTo s dst chain
        let s2 := if values then copyValuesTo s1 src dst chain else s1
        let copied := if ex then [] else chain
        (copyGo src dst values fatal s2 rest).map
          (fun p => (p.1, copied ++ p.2))

/-- Embedding of `attribute.copy`. -/
def copyModel (s : CopyScene) (src dst : String) (values : Bool)
    (attributes : Option (List String)) (fatal : Bool) :
    Except PyError (CopyScene × List String) :=
  copyGo src dst values fatal s (pyOrList attributes (s.userDefined src))

/-- The `reset` loop never raises: both failure points are wrapped in
`try/except RuntimeError` and the host only raises `RuntimeError` there. -/
theorem resetGo_never_raises (node : String) :
    ∀ (l : List String) (s : AttrScene), ∃ p, resetGo node s l = Except.ok p := by
  intro l
  induction l with
  | nil => intro s; exact ⟨(s, []), rfl⟩
  | cons a rest ih =>
    intro s
    rw [resetGo]
    by_cases hset : s.settable node a = false
    · rw [if_pos hset]; exact ih s
    · rw [if_neg hset]
      unfold tryResetOne
      cases s.defaults node a with
      | none =>
        obtain ⟨p, hp⟩ := ih s
        exact ⟨(p.1, warnResetMsg node a :: p.2), by rw [hp]; rfl⟩
      | some d =>
        by_cases hf : s.setFails node a = true
        · simp only [hf, if_pos]
          obtain ⟨p, hp⟩ := ih s
          exact ⟨(p.1, warnResetMsg node a :: p.2), by rw [hp]; rfl⟩
        · simp only [Bool.not_eq_true] at hf
          simp only [hf, Bool.false_eq_true, if_false]
          exact ih (setAttrValue s node a d)

def cAttrScene : AttrScene :=
  AttrScene.mk (fun _ => ["tx"]) (fun _ _ => true) (fun _ _ => some 0)
    (fun _ _ => true) (fun _ _ => 5)

def cMoveScene : MoveScene :=
  MoveScene.mk (fun _ => ["A"])

/-- Claim C1 counterexample: at concrete inputs, a failing `setAttr` inside
`attribute.reset` is converted into a warning log and the value is left
unchanged (no exception); `skincluster.add_influences` on a node without a
skincluster returns normally with an error log and an unchanged scene; and
`attribute.move` on a non-user attribute returns normally with an error log
and an unchanged ordering.  This contradicts the claim that these three
failures reach the caller as exceptions rather than being logged and
skipped. -/
theorem failures_logged_not_raised_counterexample :
    (resetModel cAttrScene "node" none).toOption.map Prod.snd =
        some [warnResetMsg "node" "tx"] ∧
      (resetModel cAttrScene "node" none).toOption.map
        (fun p => p.1.values "node" "tx") = some 5 ∧
      addInfluencesModel (SkinScene.mk []) "msh" ["joint1"] =
        Except.ok (SkinScene.mk [], [noSkinLogMsg "msh"]) ∧
      (moveModel cMoveScene "node.translateX" "up").toOption.map Prod.snd =
        some [errNotUserMsg] ∧
      (moveModel cMoveScene "node.translateX" "up").toOption.map
        (fun p => p.1.userAttrs "node") = some ["A"] :=
  ⟨rfl, rfl, rfl, rfl, rfl⟩

/-- Claim C1 (amended): failures propagate to the caller except at the three
places the claim itself cites, which log and continue: `attribute.reset`
never raises for a failure to set an attribute (the `RuntimeError` is caught
and a warning logged), `skincluster.add_influences` with no skincluster logs
an error and returns with the scene unchanged, and `attribute.move` on a
non-user attribute logs an error and returns with the scene unchanged. -/
theorem failures_logged_not_raised (s : AttrScene) (node : String)
    (attributes : Option (List String)) (sk : SkinScene) (n2 : String)
    (infs : List String) (ms : MoveScene)
    (plug whereArg node3 attrName : String)
    (hsk : findRelatedSkinCluster sk = none)
    (hsplit : splitPlug plug = some (node3, attrName))
    (hmem : (ms.userAttrs node3).contains attrName = false) :
    (∃ p, resetModel s node attributes = Except.ok p) ∧
      addInfluencesModel sk n2 infs = Except.ok (sk, [noSkinLogMsg n2]) ∧
      moveModel ms plug whereArg = Except.ok (ms, [errNotUserMsg]) := by
  unfold findRelatedSkinCluster at hsk
  refine ⟨resetGo_never_raises node _ s, ?_, ?_⟩
  · simp [addInfluencesModel, hsk]
  · unfold moveModel
    rw [hsplit]
    exact if_pos hmem

theorem failures_logged_not_raised_witness :
    (∃ p, resetModel cAttrScene "node" none = Except.ok p) ∧
      addInfluencesModel (SkinScene.mk []) "msh" ["joint1"] =
        Except.ok (SkinScene.mk [], [noSkinLogMsg "msh"]) ∧
      moveModel cMoveScene "node.translateX" "up" =
        Except.ok (cMoveScene, [errNotUserMsg]) :=
  failures_logged_not_raised cAttrScene "node" none (SkinScene.mk []) "msh"
    ["joint1"] cMoveScene "node.translateX" "up" "node" "translateX"
    rfl rfl rfl

def cCopyScene : CopyScene :=
  CopyScene.mk (fun _ => []) (fun _ _ => none) (fun _ x => [x])
    (fun _ _ => true) (fun _ _ => 0)

/-- Claim C2 counterexample: `name.unique` rejects an argument with two `#`
blocks by raising `NameError`, which is none of `ValueError`,
`RuntimeError`, `AttributeError`. -/
theorem rejection_error_types_counterexample :
    uniqueModel 1 [] (String.toList "a#b#") = Except.error PyError.nameError ∧
      PyError.nameError ≠ PyError.valueError ∧
      PyError.nameError ≠ PyError.runtimeError ∧
      PyError.nameError ≠ PyError.attributeError :=
  ⟨by decide, by decide, by decide, by decide⟩

/-- Claim C2 (amended): every listed argument rejection raises one of
`ValueError`, `RuntimeError`, `AttributeError`, except `name.unique`, which
raises `NameError`: `add_separator` without an `index` field raises
`ValueError`, `skincluster.create` with an unknown method raises
`ValueError`, and `attribute.copy` with `fatal=True` on an attribute that
already exists on the destination raises `AttributeError`. -/
theorem rejection_error_types (fuel : Nat) (scene : List (List Char))
    (nm : List Char) (fuel2 : Nat) (sep : SepScene) (node2 : String)
    (sepName : List Char) (sk : SkinScene) (node3 : String)
    (infs : List String) (m : String) (cs : CopyScene)
    (src dst a : String) (values : Bool)
    (hnm : isSub (List.replicate (nm.count '#') '#') nm = false)
    (hsep : hasIndexSub sepName = false)
    (hm : methodIndex m = none)
    (hpar : cs.parentOf src a = none)
    (hex : cs.hasAttr dst a = true) :
    uniqueModel fuel scene nm = Except.error PyError.nameError ∧
      addSeparatorModel fuel2 sep node2 sepName =
        Except.error PyError.valueError ∧
      skinCreate sk node3 infs m = Except.error PyError.valueError ∧
      copyModel cs src dst values (some [a]) true =
        Except.error PyError.attributeError := by
  refine ⟨?_, ?_, ?_, ?_⟩
  · unfold uniqueModel
    rw [if_neg (by simp [hnm])]
  · unfold addSeparatorModel
    rw [if_pos hsep]
  · simp [skinCreate, hm]
  · unfold copyModel pyOrList
    simp only [List.cons_ne_self]
    rw [if_neg (by simp)]
    unfold copyGo
    rw [hpar]
    simp [hex]

theorem rejection_error_types_witness :
    uniqueModel 1 [] (String.toList "a#b#") = Except.error PyError.nameError ∧
      addSeparatorModel 1 (SepScene.mk (fun _ => false)) "n"
        (String.toList "sep") = Except.error PyError.valueError ∧
      skinCreate (SkinScene.mk []) "msh" [] "badMethod" =
        Except.error PyError.valueError ∧
      copyModel cCopyScene "a" "b" false (some ["t"]) true =
        Except.error PyError.attributeError :=
  rejection_error_types 1 [] (String.toList "a#b#") 1
    (SepScene.mk (fun _ => false)) "n" (String.toList "sep")
    (SkinScene.mk []) "msh" [] "badMethod" cCopyScene "a" "b" "t" false
    (by decide) (by decide) (by decide) rfl rfl

/-! Embedding of `curve.get_cached`, `curve.set_cached` and `curve.replace`
(src/maya_tools/curve.py).  The host stores nurbsCurve cached data as degree,
spans, form, rationality, dimension, knot vector and control points.
`MPlug.getSetAttrCmds` renders it as mel lines; after the `[1:-1]` slice and
per-line `strip().split()` of `get_cached`, these are: the header numbers,
the knot line (count first), the cv count line, and one line per cv.  The
lines are modelled at token level (decimal rendering of a number is
injective, so a token is its numeric value; the rational flag is the word
`no`/`yes`). -/

inductive Tok where
  | num (i : Int)
  | yes
  | no
deriving DecidableEq, Repr

/-- One entry of the heterogeneous `Cached` list built by `get_cached`. -/
inductive CachedItem where
  | int (i : Int)
  | bool (b : Bool)
  | list (xs : List Int)
deriving DecidableEq, Repr

structure CurveData where
  degree : Int
  spans : Int
  form : Int
  rational : Bool
  dim : Int
  knots : List Int
  cvs : List (List Int)
deriving DecidableEq, Repr

/-- Host model: the stripped, split middle lines of `getSetAttrCmds` for a
`.cached` plug of a history-free curve shape. -/
def cachedCmdLines (d : CurveData) : List (List Tok) :=
  [Tok.num d.degree, Tok.num d.spans, Tok.num d.form,
      if d.rational then Tok.yes else Tok.no, Tok.num d.dim]
    :: (Tok.num d.knots.length :: d.knots.map Tok.num)
    :: [Tok.num d.cvs.length]
    :: d.cvs.map (fun cv => cv.map Tok.num)

/-- Python `int(x)` / `float(x)` on a token: fails on a non-numeric word. -/
def pyInt : Tok → Option Int
  | Tok.num i => some i
  | _ => none

/-- Python list comprehension with a possibly failing conversion: the first
failure raises. -/
def pyMapM {α β : Type} (f : α → Option β) : List α → Option (List β)
  | [] => some []
  | a :: t =>
    match f a with
    | none => none
    | some b => (pyMapM f t).map (fun bs => b :: bs)

/-- Python `list.insert(-1, x)`. -/
def insertBeforeLast {α : Type} (l : List α) (x : α) : List α :=
  match l.getLast? with
  | none => [x]
  | some y => l.dropLast ++ [x, y]

/-- The parsing performed by `curve.get_cached` on the command lines
(`cmd[0][:3]`, `cmd[0][-1]`, the `!= "no"` flag inserted before the last
element, `cmd[1][1:]` и `cmd[1][0]`, `cmd[2][0]`, then the cv lines). -/
def getCachedFromLines (cmd : List (List Tok)) : Option (List CachedItem) := do
  let line0 ← cmd[0]?
  let last0 ← line0.getLast?
  let baseInts ← pyMapM pyInt (line0.take 3 ++ [last0])
  let flag ← line0[3]?
  let args1 := insertBeforeLast (baseInts.map CachedItem.int)
    (CachedItem.bool (flag != Tok.no))
  let line1 ← cmd[1]?
  let knots ← pyMapM pyInt (line1.drop 1)
  let k0tok ← line1[0]?
  let k0 ← pyInt k0tok
  let line2 ← cmd[2]?
  let c0tok ← line2[0]?
  let c0 ← pyInt c0tok
  let cvs ← pyMapM (fun l => pyMapM pyInt l) (cmd.drop 3)
  return args1 ++ [CachedItem.list knots, CachedItem.int k0, CachedItem.int c0]
    ++ cvs.map CachedItem.list

/-- Embedding of `curve.get_cached` on a curve's stored data. -/
def getCachedModel (d : CurveData) : Option (List CachedItem) :=
  getCachedFromLines (cachedCmdLines d)

/-- Host model of `cmds.setAttr(curve + ".cached", *value,
type="nurbsCurve")`: decode the argument list in the layout shown working by
`set_cached`'s doctest (degree, spans, form, rational, dimension, knot list,
knot count, cv count, cvs), validating the counts. -/
def hostSetCachedDecode (v : List CachedItem) : Option CurveData :=
  match v with
  | CachedItem.int deg :: CachedItem.int spans :: CachedItem.int form ::
      CachedItem.bool rat :: CachedItem.int dim :: CachedItem.list knots ::
      CachedItem.int nk :: CachedItem.int ncv :: rest =>
    match pyMapM (fun it =>
        match it with
        | CachedItem.list cv => some cv
        | _ => none) rest with
    | none => none
    | some cvs =>
      if nk = knots.length ∧ ncv = cvs.length then
        some (CurveData.mk deg spans form rat dim knots cvs)
      else none
  | _ => none

structure CurveScene where
  curves : String → Option CurveData

/-- Embedding of `curve.set_cached`. -/
def setCachedModel (s : CurveScene) (curve : String) (v : List CachedItem) :
    Option CurveScene :=
  (hostSetCachedDecode v).map
    (fun d => CurveScene.mk (fun n => if n = curve then some d else s.curves n))

/-- Embedding of `curve.get_cached` against a scene. -/
def getCachedScene (s : CurveScene) (curve : String) :
    Option (List CachedItem) :=
  match s.curves curve with
  | none => none
  | some d => getCachedModel d

/-- Embedding of `curve.replace`:
`set_cached(destination, get_cached(source))`. -/
def replaceModel (s : CurveScene) (src dst : String) : Option CurveScene := do
  let cached ← getCachedScene s src
  setCachedModel s dst cached

theorem mapM_pyInt_map_num (l : List Int) :
    pyMapM pyInt (l.map Tok.num) = some l := by
  induction l with
  | nil => rfl
  | cons a t ih => simp [pyMapM, pyInt, ih]

theorem mapM_pyInt_cvs (l : List (List Int)) :
    pyMapM (fun r => pyMapM pyInt r) (l.map (fun cv => cv.map Tok.num)) =
      some l := by
  induction l with
  | nil => rfl
  | cons a t ih => simp [pyMapM, mapM_pyInt_map_num, ih]

theorem mapM_extract_list (l : List (List Int)) :
    pyMapM (fun it =>
      match it with
      | CachedItem.list cv => some cv
      | _ => none) (l.map CachedItem.list) = some l := by
  induction l with
  | nil => rfl
  | cons a t ih => simp [pyMapM, ih]

/-- The canonical `Cached` list `get_cached` produces for stored data. -/
def cachedList (d : CurveData) : List CachedItem :=
  [CachedItem.int d.degree, CachedItem.int d.spans, CachedItem.int d.form,
      CachedItem.bool d.rational, CachedItem.int d.dim,
      CachedItem.list d.knots, CachedItem.int d.knots.length,
      CachedItem.int d.cvs.length]
    ++ d.cvs.map CachedItem.list

theorem getCachedModel_eq (d : CurveData) :
    getCachedModel d = some (cachedList d) := by
  unfold getCachedModel getCachedFromLines cachedCmdLines cachedList
  cases hr : d.rational with
  | false =>
    simp [pyMapM, pyInt, insertBeforeLast, mapM_pyInt_map_num,
      mapM_pyInt_cvs, List.getLast?]
  | true =>
    simp [pyMapM, pyInt, insertBeforeLast, mapM_pyInt_map_num,
      mapM_pyInt_cvs, List.getLast?]

theorem hostSetCachedDecode_inv (d : CurveData) :
    hostSetCachedDecode (cachedList d) = some d := by
  unfold hostSetCachedDecode cachedList
  simp [mapM_extract_list]

/-- Claim C4: for curves whose shapes have no construction history,
`curve.replace(source, destination)` — that is,
`set_cached(destination, get_cached(source))` — makes the destination's
cached curve data equal to the source's, so that `get_cached(destination)`
afterwards returns the same list (degree, spans, form, rational flag, knots
and control points) as `get_cached(source)`. -/
theorem curve_replace_roundtrip (s : CurveScene) (src dst : String)
    (d : CurveData) (h : s.curves src = some d) :
    ∃ s2, replaceModel s src dst = some s2 ∧
      s2.curves dst = some d ∧
      getCachedScene s2 dst = getCachedScene s src := by
  have hget : getCachedScene s src = some (cachedList d) := by
    simp [getCachedScene, h, getCachedModel_eq]
  refine ⟨CurveScene.mk (fun n => if n = dst then some d else s.curves n),
    ?_, ?_, ?_⟩
  · unfold replaceModel
    rw [hget]
    simp [setCachedModel, hostSetCachedDecode_inv]
  · simp
  · rw [hget]
    simp [getCachedScene, getCachedModel_eq]

def cCurveData : CurveData :=
  CurveData.mk 1 2 0 false 3 [0, 1, 2] [[-5, 0, 0], [0, 5, 0], [5, 0, 0]]

def cCurveScene : CurveScene :=
  CurveScene.mk (fun n => if n = "a" then some cCurveData else none)

theorem curve_replace_roundtrip_witness :
    ∃ s2, replaceModel cCurveScene "a" "b" = some s2 ∧
      s2.curves "b" = some cCurveData ∧
      getCachedScene s2 "b" = getCachedScene cCurveScene "a" :=
  curve_replace_roundtrip cCurveScene "a" "b" cCurveData (by decide)

/-! Embedding of `selection.keep`, `attribute.restore` and
`attribute.unlock`.  The visible scene state is the active selection, the
attribute names, values and lock states; a block of code is an arbitrary
transformation of that state which either returns normally or raises (the
raised exception carries the state at raise time).  `cmds.nodePreset` keeps
its presets in a host-side registry which the context managers use to store
and recall the node's attribute values; blocks act on the visible scene. -/

structure SceneCore where
  selection : List String
  attrNames : String → List String
  attrValues : String → String → Int
  locks : String → String → Bool

/-- Outcome of running a block: normal return or an exception. -/
inductive CoreRes where
  | ok (c : SceneCore)
  | exn (c : SceneCore)

def CoreRes.core : CoreRes → SceneCore
  | CoreRes.ok c => c
  | CoreRes.exn c => c

def CoreRes.raised : CoreRes → Bool
  | CoreRes.ok _ => false
  | CoreRes.exn _ => true

/-- Model of `cmds.select(sel)` and `cmds.select(clear=True)`. -/
def setSelection (c : SceneCore) (sel : List String) : SceneCore :=
  SceneCore.mk sel c.attrNames c.attrValues c.locks

/-- Embedding of `selection.keep`: store `cmds.ls(selection=True)`, run the
block, and in the `finally` clause re-select it (or clear when it was
empty). -/
def keepCM (f : SceneCore → CoreRes) (c : SceneCore) : CoreRes :=
  let selection := c.selection
  match f c with
  | CoreRes.ok c2 =>
    CoreRes.ok (if selection ≠ [] then setSelection c2 selection
      else setSelection c2 [])
  | CoreRes.exn c2 =>
    CoreRes.exn (if selection ≠ [] then setSelection c2 selection
      else setSelection c2 [])

structure World where
  core : SceneCore
  presets : List (String × (String → Int))

inductive WorldRes where
  | ok (w : World)
  | exn (w : World)

def WorldRes.world : WorldRes → World
  | WorldRes.ok w => w
  | WorldRes.exn w => w

def WorldRes.raised : WorldRes → Bool
  | WorldRes.ok _ => false
  | WorldRes.exn _ => true

def presetLookup : List (String × (String → Int)) → String →
    Option (String → Int)
  | [], _ => none
  | (k, v) :: t, n => if k = n then some v else presetLookup t n

def presetEraseKey : List (String × (String → Int)) → String →
    List (String × (String → Int))
  | [], _ => []
  | (k, v) :: t, n => if k = n then t else (k, v) :: presetEraseKey t n

/-- Model of `cmds.nodePreset(save=(node, node))`. -/
def presetSave (w : World) (node : String) : World :=
  World.mk w.core ((node, fun a => w.core.attrValues node a) :: w.presets)

/-- Model of `cmds.nodePreset(load=(node, node))`. -/
def presetLoad (w : World) (node : String) : World :=
  match presetLookup w.presets node with
  | none => w
  | some snap =>
    World.mk (SceneCore.mk w.core.selection w.core.attrNames
      (fun n a => if n = node then snap a else w.core.attrValues n a)
      w.core.locks) w.presets

/-- Model of `cmds.nodePreset(delete=(node, node))`. -/
def presetDelete (w : World) (node : String) : World :=
  World.mk w.core (presetEraseKey w.presets node)

/-- Embedding of `attribute.restore`: save a preset of the node, run the
block, and in the `finally` clause load and delete the preset. -/
def restoreCM (node : String) (f : SceneCore → CoreRes) (w : World) :
    WorldRes :=
  let w1 := presetSave w node
  match f w1.core with
  | CoreRes.ok c2 =>
    WorldRes.ok (presetDelete (presetLoad (World.mk c2 w1.presets) node) node)
  | CoreRes.exn c2 =>
    WorldRes.exn (presetDelete (presetLoad (World.mk c2 w1.presets) node) node)

/-- Model of `cmds.listAttr(node, locked=True) or []`. -/
def lockedList (c : SceneCore) (node : String) : List String :=
  (c.attrNames node).filter (fun a => c.locks node a)

/-- Model of `cmds.setAttr(plug, lock=value)`. -/
def setLock (c : SceneCore) (node a : String) (v : Bool) : SceneCore :=
  SceneCore.mk c.selection c.attrNames c.attrValues
    (fun n b => if n = node ∧ b = a then v else c.locks n b)

/-- Embedding of `attribute.unlock`: record the lock state of the affected
plugs in a dict, unlock them, run the block, and in the `finally` clause
restore each recorded state. -/
def unlockCM (node : String) (attributes : Option (List String))
    (f : SceneCore → CoreRes) (c : SceneCore) : CoreRes :=
  let attrs := pyOrList attributes (lockedList c node)
  let plugs := attrs.dedup.map (fun a => (a, c.locks node a))
  let c1 := plugs.foldl (fun acc p => setLock acc node p.1 false) c
  match f c1 with
  | CoreRes.ok c2 =>
    CoreRes.ok (plugs.foldl (fun acc p => setLock acc node p.1 p.2) c2)
  | CoreRes.exn c2 =>
    CoreRes.exn (plugs.foldl (fun acc p => setLock acc node p.1 p.2) c2)

theorem foldl_setLock_not_mem (node a : String) :
    ∀ (plugs : List (String × Bool)) (c : SceneCore),
      a ∉ plugs.map Prod.fst →
      (plugs.foldl (fun acc p => setLock acc node p.1 p.2) c).locks node a =
        c.locks node a := by
  intro plugs
  induction plugs with
  | nil => intro c _; rfl
  | cons p t ih =>
    intro c hmem
    simp only [List.map_cons, List.mem_cons] at hmem
    push_neg at hmem
    rw [List.foldl_cons, ih _ hmem.2]
    simp only [setLock]
    exact if_neg (fun h => hmem.1 h.2)

theorem foldl_setLock_mem (node : String) :
    ∀ (plugs : List (String × Bool)) (c : SceneCore) (a : String) (v : Bool),
      (a, v) ∈ plugs → (plugs.map Prod.fst).Nodup →
      (plugs.foldl (fun acc p => setLock acc node p.1 p.2) c).locks node a = v := by
  intro plugs
  induction plugs with
  | nil => intro c a v hmem _; simp at hmem
  | cons p t ih =>
    intro c a v hmem hnd
    obtain ⟨p1, p2⟩ := p
    simp only [List.map_cons, List.nodup_cons] at hnd
    rw [List.foldl_cons]
    rcases List.mem_cons.mp hmem with heq | hmem2
    · injection heq with ha hv
      subst ha
      subst hv
      rw [foldl_setLock_not_mem node a t _ hnd.1]
      simp [setLock]
    · exact ih _ a v hmem2 hnd.2

/-- Lock states recorded in the dict of `unlock` are those of the entry
scene, so replaying them restores the entry state for every affected
attribute. -/
theorem unlock_restores_locks (node : String)
    (attributes : Option (List String)) (f : SceneCore → CoreRes)
    (c : SceneCore) :
    ∀ a ∈ pyOrList attributes (lockedList c node),
      (unlockCM node attributes f c).core.locks node a = c.locks node a := by
  intro a ha
  have hmem : (a, c.locks node a) ∈
      (pyOrList attributes (lockedList c node)).dedup.map
        (fun x => (x, c.locks node x)) :=
    List.mem_map.mpr ⟨a, List.mem_dedup.mpr ha, rfl⟩
  have hnd : ((pyOrList attributes (lockedList c node)).dedup.map
      (fun x => (x, c.locks node x)) |>.map Prod.fst).Nodup := by
    rw [List.map_map]
    have hcomp : (Prod.fst ∘ fun x => (x, c.locks node x)) = fun x : String => x := rfl
    rw [hcomp]
    simpa using (List.nodup_dedup (pyOrList attributes (lockedList c node)))
  unfold unlockCM
  cases hf : f ((pyOrList attributes (lockedList c node)).dedup.map
      (fun x => (x, c.locks node x)) |>.foldl
      (fun acc p => setLock acc node p.1 false) c) with
  | ok c2 => simpa [hf] using foldl_setLock_mem node _ c2 a _ hmem hnd
  | exn c2 => simpa [hf] using foldl_setLock_mem node _ c2 a _ hmem hnd

/-- Claim C5: after a `with selection.keep(): ...` block exits — normally or
by an exception — the active selection equals the selection at entry; after
`with attribute.restore(node): ...` exits, the node's attribute values equal
their values at entry (and the saved preset is deleted again); and after
`with attribute.unlock(node): ...` exits, every affected plug has the lock
state it had at entry.  Exceptions raised by the block are re-raised. -/
theorem context_managers_restore :
    (∀ (f : SceneCore → CoreRes) (c : SceneCore),
      (keepCM f c).core.selection = c.selection ∧
        (keepCM f c).raised = (f c).raised) ∧
      (∀ (node : String) (f : SceneCore → CoreRes) (w : World) (a : String),
        (restoreCM node f w).world.core.attrValues node a =
            w.core.attrValues node a ∧
          (restoreCM node f w).world.presets = w.presets ∧
          (restoreCM node f w).raised = (f (presetSave w node).core).raised) ∧
      (∀ (node : String) (attributes : Option (List String))
          (f : SceneCore → CoreRes) (c : SceneCore),
        ∀ a ∈ pyOrList attributes (lockedList c node),
          (unlockCM node attributes f c).core.locks node a =
            c.locks node a) := by
  refine ⟨?_, ?_, ?_⟩
  · intro f c
    cases hf : f c with
    | ok c2 =>
      constructor
      · by_cases hsel : c.selection = [] <;>
          simp [keepCM, hf, setSelection, CoreRes.core, hsel]
      · simp [keepCM, hf, CoreRes.raised]
    | exn c2 =>
      constructor
      · by_cases hsel : c.selection = [] <;>
          simp [keepCM, hf, setSelection, CoreRes.core, hsel]
      · simp [keepCM, hf, CoreRes.raised]
  · intro node f w a
    cases hf : f w.core with
    | ok c2 =>
      refine ⟨?_, ?_, ?_⟩ <;>
        simp [restoreCM, hf, presetSave, presetLoad, presetLookup,
          presetDelete, presetEraseKey, WorldRes.world, WorldRes.raised,
          CoreRes.raised]
    | exn c2 =>
      refine ⟨?_, ?_, ?_⟩ <;>
        simp [restoreCM, hf, presetSave, presetLoad, presetLookup,
          presetDelete, presetEraseKey, WorldRes.world, WorldRes.raised,
          CoreRes.raised]
  · intro node attributes f c a ha
    exact unlock_restores_locks node attributes f c a ha

def cCore : SceneCore :=
  SceneCore.mk ["A"] (fun _ => ["tx"]) (fun _ _ => 0) (fun _ _ => true)

theorem context_managers_restore_witness :
    (unlockCM "n" (some ["tx"]) CoreRes.ok cCore).core.locks "n" "tx" =
      cCore.locks "n" "tx" :=
  context_managers_restore.2.2 "n" (some ["tx"]) CoreRes.ok cCore "tx"
    (by decide)

/-! Embedding of `api.as_selection` and
`attribute.find_used_indices` (src/maya_tools/api.py,
src/maya_tools/attribute.py).  Both are pure queries: each host call is
modelled as a step returning its result together with the (unchanged) scene,
and the library keeps no state of its own between calls — its modules define
only constants at module level — so a call sees nothing but its arguments
and the scene. -/

structure ApiScene where
  objects : List String
  arrayIndices : String → List Nat

/-- Model of `OpenMaya.MSelectionList().add(name)`: resolves the name
against the live scene; raises when it does not resolve.  The scene is
returned unchanged: the call is a query. -/
def mselAddStep (s : ApiScene) (sel : List String) (name : String) :
    Except PyError (List String) × ApiScene :=
  (if s.objects.contains name then Except.ok (sel ++ [name])
    else Except.error PyError.runtimeError, s)

/-- Embedding of `api.as_selection`. -/
def asSelectionModel (s : ApiScene) (name : String) :
    Except PyError (List String) × ApiScene :=
  mselAddStep s [] name

/-- Model of `MPlug.getExistingArrayAttributeIndices()`: a query. -/
def getExistingIndicesStep (s : ApiScene) (plug : String) :
    List Nat × ApiScene :=
  (s.arrayIndices plug, s)

/-- Embedding of `attribute.find_used_indices`. -/
def findUsedIndicesModel (s : ApiScene) (plug : String) :
    Except PyError (List Nat) × ApiScene :=
  match mselAddStep s [] plug with
  | (Except.error e, s1) => (Except.error e, s1)
  | (Except.ok _, s1) =>
    let r := getExistingIndicesStep s1 plug
    (Except.ok r.1, r.2)

/-- Claim C9: the library keeps no state between calls: the cited query
functions leave the scene unchanged, and calling the same query twice in a
row against the same scene returns the same result — nothing obtained from
the host in the first call is cached and reused by the second; the result is
a function of the arguments and the live scene only. -/
theorem queries_stateless (s : ApiScene) (name plug : String) :
    (asSelectionModel s name).2 = s ∧
      (asSelectionModel (asSelectionModel s name).2 name).1 =
        (asSelectionModel s name).1 ∧
      (findUsedIndicesModel s plug).2 = s ∧
      (findUsedIndicesModel (findUsedIndicesModel s plug).2 plug).1 =
        (findUsedIndicesModel s plug).1 := by
  refine ⟨rfl, rfl, ?_, ?_⟩
  · unfold findUsedIndicesModel mselAddStep getExistingIndicesStep
    by_cases h : plug ∈ s.objects
    · simp [h]
    · simp [h]
  · unfold findUsedIndicesModel mselAddStep getExistingIndicesStep
    by_cases h : plug ∈ s.objects
    · simp [h]
    · simp [h]
